import Mathlib

/-!
Shallow embedding of the Budget-Dekho transaction pipeline:
the server actions in `src/actions/transaction.js` (receipt normalization
inside `scanReceipt`, `createTransaction`, `updateTransaction`,
`calculateNextRecurringDate`) and the client-side form reconciler in the
unnamed component file (`AddTransactionForm` / `handleScanComplete` /
`ReceiptScanner`).

Modelling conventions:
* JavaScript numbers are modelled as rationals (`Rat`); `NaN` is modelled
  as `none` in `Option Rat`.  String-to-number coercion is modelled for
  plain decimal literals, which is the fragment the program exercises.
* Database state is a pure `Store`; a Prisma `$transaction` block is one
  pure state transform (the atomic unit), and a thrown error is `Except.error`.
* Authentication, rate limiting and revalidation are external collaborators
  and are not part of the embedded state.
-/

/-- A parsed JSON value, as produced by `JSON.parse` over the AI response.
Objects/arrays never occur at field level in the extraction contract. -/
inductive JVal where
  | jnull
  | jbool (b : Bool)
  | jnum (q : Rat)
  | jstr (s : String)
deriving DecidableEq, Repr

open JVal

/-- JavaScript truthiness of a possibly-absent field (`none` = `undefined`). -/
def jsTruthy : Option JVal → Bool
  | none => false
  | some jnull => false
  | some (jbool b) => b
  | some (jnum q) => q != 0
  | some (jstr s) => s != ""

/-- Digit run to a natural number (`"123"` ↦ 123). -/
def digitsToNat (cs : List Char) : Nat :=
  cs.foldl (fun n c => 10 * n + (c.toNat - 48)) 0

/-- ASCII lowercasing (`String.prototype.toLowerCase` on the identifiers
this program compares), written over the character list so concrete
instances evaluate. -/
def strToLower (s : String) : String :=
  String.mk (s.data.map Char.toLower)

/-- Whitespace trimming (`String.prototype.trim`), written over the
character list so concrete instances evaluate. -/
def strTrim (s : String) : String :=
  String.mk (((s.data.dropWhile Char.isWhitespace).reverse.dropWhile
    Char.isWhitespace).reverse)

/-- Parse a signed decimal literal prefix: optional sign, digits, optional
fractional part.  Returns the value and the unconsumed suffix; `none` when
no digit is present (JS `NaN`). -/
def parseDecPrefix (cs : List Char) : Option (Rat × List Char) :=
  let (sgn, cs1) :=
    match cs with
    | '-' :: rest => ((-1 : Rat), rest)
    | '+' :: rest => ((1 : Rat), rest)
    | _ => ((1 : Rat), cs)
  let intPart := cs1.takeWhile (·.isDigit)
  let cs2 := cs1.dropWhile (·.isDigit)
  let fracPart :=
    match cs2 with
    | '.' :: rest => rest.takeWhile (·.isDigit)
    | _ => []
  let cs3 :=
    match cs2 with
    | '.' :: rest => rest.dropWhile (·.isDigit)
    | _ => cs2
  if intPart.isEmpty && fracPart.isEmpty then none
  else
    some (sgn * ((digitsToNat intPart : Rat) +
      (digitsToNat fracPart : Rat) / ((10 : Rat) ^ fracPart.length)), cs3)

/-- JS `parseFloat` on a string: skip leading whitespace, parse the longest
decimal-literal prefix, ignore trailing garbage.  `none` models `NaN`. -/
def jsParseFloatStr (s : String) : Option Rat :=
  (parseDecPrefix (s.data.dropWhile Char.isWhitespace)).map Prod.fst

/-- JS `ToNumber` on a string: whole-string numeric interpretation; blank
strings coerce to 0; anything else that is not a decimal literal is `NaN`. -/
def jsToNumberStr (s : String) : Option Rat :=
  let t := strTrim s
  if t = "" then some 0
  else
    match parseDecPrefix t.toList with
    | some (q, []) => some q
    | _ => none

/-- JS `ToNumber` on a value (`none` result models `NaN`). -/
def jsToNumber : JVal → Option Rat
  | jnull => some 0
  | jbool b => some (if b then 1 else 0)
  | jnum q => some q
  | jstr s => jsToNumberStr s

/-- The JS relational test `v <= 0` (false when the coercion yields `NaN`). -/
def jsLeZero (v : JVal) : Bool :=
  match jsToNumber v with
  | some q => decide (q ≤ 0)
  | none => false

/-- JS `parseFloat(v)`: numbers pass through; strings are prefix-parsed;
`null` and booleans stringify to non-numeric text, hence `NaN`. -/
def jsParseFloat : JVal → Option Rat
  | jnum q => some q
  | jstr s => jsParseFloatStr s
  | jnull => none
  | jbool _ => none

/-- Exact match of the date pattern `^\d{4}-\d{2}-\d{2}$`, returning the
three digit groups. -/
def parseYMD (s : String) : Option (Int × Int × Int) :=
  match s.toList with
  | [a, b, c, d, '-', e, f, '-', g, h] =>
    if (a.isDigit && b.isDigit && c.isDigit && d.isDigit &&
        e.isDigit && f.isDigit && g.isDigit && h.isDigit) then
      some ((digitsToNat [a, b, c, d] : Int),
            (digitsToNat [e, f] : Int),
            (digitsToNat [g, h] : Int))
    else none
  | _ => none

/-- `dateRegex.test` from `scanReceipt`: the literal pattern
`^\d{4}-\d{2}-\d{2}$`. -/
def matchesYMD (s : String) : Bool :=
  (parseYMD s).isSome

/-- The regex test applied to a JSON field value.  `RegExp.test` coerces
its argument to a string first; the renderings of `null`, booleans and
finite numbers contain no two interior dashes, so only string fields can
match the date pattern. -/
def jvalMatchesYMD : JVal → Bool
  | jstr s => matchesYMD s
  | _ => false

/-! ## Calendar dates and `calculateNextRecurringDate` -/

/-- A civil calendar date (month 1–12, day 1–31 for valid dates). -/
structure CalDate where
  year : Int
  month : Int
  day : Int
deriving DecidableEq, Repr

/-- Gregorian leap-year rule, as implemented by the JS `Date` object. -/
def isLeap (y : Int) : Bool :=
  (y % 4 == 0 && y % 100 != 0) || y % 400 == 0

/-- Length of a month. -/
def daysInMonth (y m : Int) : Int :=
  if m = 2 then (if isLeap y then 29 else 28)
  else if m = 4 ∨ m = 6 ∨ m = 9 ∨ m = 11 then 30
  else 31

/-- A date is a real calendar date. -/
def CalDate.valid (d : CalDate) : Prop :=
  1 ≤ d.month ∧ d.month ≤ 12 ∧ 1 ≤ d.day ∧ d.day ≤ daysInMonth d.year d.month

instance (d : CalDate) : Decidable d.valid := by
  unfold CalDate.valid; infer_instance

/-- Advance one calendar day, with month/year rollover.  This is
`date.setDate(date.getDate() + 1)` for a valid date. -/
def addOneDay (d : CalDate) : CalDate :=
  if d.day < daysInMonth d.year d.month then ⟨d.year, d.month, d.day + 1⟩
  else if d.month < 12 then ⟨d.year, d.month + 1, 1⟩
  else ⟨d.year + 1, 1, 1⟩

/-- Advance `n` calendar days (`date.setDate(date.getDate() + n)`). -/
def addDaysN : Nat → CalDate → CalDate
  | 0, d => d
  | n + 1, d => addDaysN n (addOneDay d)

/-- JS `Date` day-of-month overflow normalization: a nominal `(y, m, day)`
with `day` possibly past the end of month `m` rolls the excess into the
following month.  For `day ≤ 31` one roll step suffices. -/
def rollDay (y m day : Int) : CalDate :=
  if day ≤ daysInMonth y m then ⟨y, m, day⟩
  else if m < 12 then ⟨y, m + 1, day - daysInMonth y m⟩
  else ⟨y + 1, 1, day - daysInMonth y m⟩

/-- `date.setMonth(date.getMonth() + 1)`: increment the month (rolling into
the next year from December), keeping the day number, then normalize
day-of-month overflow the way JS `Date` does (Jan 31 ↦ Mar 2/3). -/
def addMonthJS (d : CalDate) : CalDate :=
  if d.month = 12 then rollDay (d.year + 1) 1 d.day
  else rollDay d.year (d.month + 1) d.day

/-- `date.setFullYear(date.getFullYear() + 1)`: increment the year, then
normalize day-of-month overflow (Feb 29 ↦ Mar 1 in a non-leap target). -/
def addYearJS (d : CalDate) : CalDate :=
  rollDay (d.year + 1) d.month d.day

/-- `calculateNextRecurringDate` from `src/actions/transaction.js`: a
`switch` over the interval; an unrecognized interval leaves the date
unchanged (no `default` case). -/
def calculateNextRecurringDate (startDate : CalDate) (interval : String) : CalDate :=
  match interval with
  | "DAILY" => addOneDay startDate
  | "WEEKLY" => addDaysN 7 startDate
  | "MONTHLY" => addMonthJS startDate
  | "YEARLY" => addYearJS startDate
  | _ => startDate

/-- Strict chronological order on calendar dates (lexicographic). -/
def CalDate.before (a b : CalDate) : Prop :=
  a.year < b.year ∨
    (a.year = b.year ∧ (a.month < b.month ∨ (a.month = b.month ∧ a.day < b.day)))

instance (a b : CalDate) : Decidable (a.before b) := by
  unfold CalDate.before; infer_instance

/-! ## Extraction normalizer (`scanReceipt`, lines 92–139)

`scanReceipt`'s network and base64 stages are external; the embedded part is
the validate-and-normalize block that runs on the parsed JSON object. -/

/-- The four extraction fields of the parsed JSON object; `none` is an
absent key (`undefined`). -/
structure ParsedData where
  amount : Option JVal
  date : Option JVal
  description : Option JVal
  category : Option JVal
deriving DecidableEq, Repr

/-- The object returned in `{ success: true, data: parsedData }` after the
in-place normalization: `amount` has been replaced by its `parseFloat`
result (a genuine number), the other fields keep their JSON values with
defaults substituted. -/
structure NormalizedData where
  amount : Rat
  date : JVal
  description : JVal
  category : JVal
deriving DecidableEq, Repr

/-- The validate-and-normalize block of `scanReceipt` (transaction.js
lines 104–139), applied to `parsedData` after a successful `JSON.parse`.
`today` is `new Date().toISOString().split('T')[0]`.  `Except.error`
models a thrown `Error` with the given message. -/
def normalizeParsed (today : String) (p : ParsedData) : Except String NormalizedData :=
  if !jsTruthy p.amount || (match p.amount with | some v => jsLeZero v | none => false) then
    Except.error "Could not extract amount from receipt"
  else
    match (match p.amount with | some v => jsParseFloat v | none => none) with
    | none => Except.error "Invalid amount in receipt"
    | some amt =>
      let d1 : JVal :=
        if !jsTruthy p.date || p.date = some (jstr "") then jstr today
        else p.date.getD jnull
      let d2 : JVal := if !jvalMatchesYMD d1 then jstr today else d1
      let desc : JVal :=
        if !jsTruthy p.description || p.description = some (jstr "") then
          jstr "Receipt Transaction"
        else p.description.getD jnull
      let cat : JVal :=
        if jsTruthy p.category then p.category.getD jnull else jstr ""
      Except.ok ⟨amt, d2, desc, cat⟩

/-! ## Server store, `createTransaction` and `updateTransaction` -/

/-- An account row: identifier and current balance. -/
structure Account where
  id : String
  balance : Rat
deriving DecidableEq, Repr

/-- A persisted transaction row (the fields the ledger logic reads). -/
structure Txn where
  id : String
  ttype : String
  amount : Rat
  accountId : String
  date : CalDate
  isRecurring : Bool
  recurringInterval : Option String
  nextRecurringDate : Option CalDate
deriving DecidableEq, Repr

/-- The client-supplied `data` argument of `createTransaction` /
`updateTransaction`. -/
structure TxnData where
  ttype : String
  amount : Rat
  accountId : String
  date : CalDate
  isRecurring : Bool
  recurringInterval : Option String
deriving DecidableEq, Repr

/-- The database state the ledger logic touches (rows of one user). -/
structure Store where
  accounts : List Account
  transactions : List Txn
deriving DecidableEq, Repr

/-- Balance of the account with the given id, if present. -/
def getBalance (s : Store) (aid : String) : Option Rat :=
  (s.accounts.find? (fun a => a.id == aid)).map Account.balance

/-- The `nextRecurringDate` expression shared by create and update:
`data.isRecurring && data.recurringInterval ? calculateNextRecurringDate(...) : null`
(an absent or empty interval string is falsy). -/
def nextRecurringOf (data : TxnData) : Option CalDate :=
  match data.recurringInterval with
  | some iv => if data.isRecurring && iv != "" then
      some (calculateNextRecurringDate data.date iv) else none
  | none => none

/-- `createTransaction` (transaction.js lines 149–232), with auth and rate
limiting externalized.  The `db.$transaction` block is the single returned
store: the new row and the new balance are one atomic state change. -/
def createTransaction (newId : String) (data : TxnData) (s : Store) : Except String Store :=
  match s.accounts.find? (fun a => a.id == data.accountId) with
  | none => Except.error "Account not found"
  | some account =>
    let balanceChange : Rat := if data.ttype == "EXPENSE" then -data.amount else data.amount
    let newBalance := account.balance + balanceChange
    let newTransaction : Txn :=
      { id := newId, ttype := data.ttype, amount := data.amount,
        accountId := data.accountId, date := data.date,
        isRecurring := data.isRecurring,
        recurringInterval := data.recurringInterval,
        nextRecurringDate := nextRecurringOf data }
    Except.ok
      { accounts := s.accounts.map (fun a =>
          if a.id == data.accountId then { a with balance := newBalance } else a),
        transactions := s.transactions ++ [newTransaction] }

/-- `updateTransaction` (transaction.js lines 263–335).  The original
transaction is fetched fresh from the store; `oldBalanceChange` is computed
from that record, `newBalanceChange` from the client data, and the account
balance is incremented by their difference inside the same atomic block.
A missing target account makes the Prisma `account.update` throw, rolling
the whole block back, modelled as `Except.error`. -/
def updateTransaction (id : String) (data : TxnData) (s : Store) : Except String Store :=
  match s.transactions.find? (fun t => t.id == id) with
  | none => Except.error "Transaction not found"
  | some originalTransaction =>
    let oldBalanceChange : Rat :=
      if originalTransaction.ttype == "EXPENSE" then -originalTransaction.amount
      else originalTransaction.amount
    let newBalanceChange : Rat :=
      if data.ttype == "EXPENSE" then -data.amount else data.amount
    let netBalanceChange := newBalanceChange - oldBalanceChange
    if (s.accounts.find? (fun a => a.id == data.accountId)).isSome then
      Except.ok
        { transactions := s.transactions.map (fun t =>
            if t.id == id then
              { id := t.id, ttype := data.ttype, amount := data.amount,
                accountId := data.accountId, date := data.date,
                isRecurring := data.isRecurring,
                recurringInterval := data.recurringInterval,
                nextRecurringDate := nextRecurringOf data }
            else t),
          accounts := s.accounts.map (fun a =>
            if a.id == data.accountId then
              { a with balance := a.balance + netBalanceChange } else a) }
    else Except.error "Account not found"


/-! ## Client-side reconciler (`AddTransactionForm`, `handleScanComplete`)

The scanned draft delivered to `handleScanComplete` is `scannedData.data`
from a successful `scanReceipt`, i.e. an object with a numeric amount and
string date/description/category fields; `none` is an absent field. -/

/-- A category row visible to the form (`categories` prop). -/
structure Category where
  id : String
  name : String
  ctype : String
deriving DecidableEq, Repr

/-- The form fields that the reconciler and the type-change effect touch.
The amount field holds the rendered string of the input box. -/
structure FormState where
  ftype : String
  amount : String
  description : String
  category : String
  date : CalDate
deriving DecidableEq, Repr

/-- The draft object handed to `handleScanComplete`. -/
structure ScannedData where
  amount : Option Rat
  date : Option String
  description : Option String
  category : Option String
deriving DecidableEq, Repr

/-- JS number rendering (`amount.toString()`), modelled up to an injective
encoding of the rational; no verified property depends on the digits. -/
def numToString (q : Rat) : String :=
  if q.den = 1 then toString q.num
  else toString q.num ++ "/" ++ toString q.den

/-- `new Date(s)` for the draft's date string: an exact `YYYY-MM-DD` string
denoting a real calendar date parses; anything else is an Invalid Date
(`none`). -/
def jsParseDate (s : String) : Option CalDate :=
  match parseYMD s with
  | some (y, m, d) =>
    if 1 ≤ m ∧ m ≤ 12 ∧ 1 ≤ d ∧ d ≤ daysInMonth y m then some ⟨y, m, d⟩ else none
  | none => none

/-- The category lookup inside `handleScanComplete`'s deferred block
(part_000 lines 164–177): lowercase the suggestion, then
`categories.find(cat => cat.name.toLowerCase() === categoryName && cat.type === "EXPENSE")`
— the transaction type at this point has just been forced to `EXPENSE`.
Blank or absent suggestions resolve to none without searching. -/
def resolveCategory (suggestion : String) (cats : List Category) : Option String :=
  if suggestion != "" && strTrim suggestion != "" then
    (cats.find? (fun cat => strToLower cat.name == strToLower suggestion
        && cat.ctype == "EXPENSE")).map Category.id
  else none

/-- The synchronous body of `handleScanComplete` after the guard (part_000
lines 118–160): amount, date, description writes, then the type write to
`EXPENSE`.  Returns the mutated form and the advisory warnings raised. -/
def scanPhase1 (d : ScannedData) (form : FormState) : FormState × List String :=
  ({ ftype := "EXPENSE",
     amount :=
       match d.amount with
       | some a => if 0 < a then numToString a else form.amount
       | none => form.amount,
     description :=
       match d.description with
       | some s => if strTrim s != "" then s else form.description
       | none => form.description,
     category := form.category,
     date :=
       match d.date with
       | some s =>
         if s != "" then
           match jsParseDate s with
           | some dt => dt
           | none => form.date
         else form.date
       | none => form.date },
   match d.amount with
   | some a =>
     if 0 < a then ([] : List String)
     else ["Could not auto-fill amount. Please enter manually."]
   | none => ["Could not extract amount from receipt"])

/-- The deferred `setTimeout` block of `handleScanComplete` (part_000
lines 163–185): category resolution against the EXPENSE-scoped list, with
an explicit clear to `""` and an advisory when unresolved or absent. -/
def scanPhase2 (cats : List Category) (d : ScannedData) (form : FormState) :
    FormState × List String :=
  match d.category with
  | some s =>
    if s != "" && strTrim s != "" then
      match cats.find? (fun cat => strToLower cat.name == strToLower s
          && cat.ctype == "EXPENSE") with
      | some foundCategory => ({ form with category := foundCategory.id }, [])
      | none =>
        ({ form with category := "" },
         ["Could not match category \x22" ++ s ++ "\x22. Please select manually."])
    else
      ({ form with category := "" },
       ["Could not extract category from receipt. Please select manually."])
  | none =>
    ({ form with category := "" },
     ["Could not extract category from receipt. Please select manually."])

/-- Reconciler state: the `isProcessingScan` ref, the draft captured by the
pending `setTimeout` closure (if one is scheduled), the form, and the
accumulated advisory toasts. -/
structure ScanSys where
  applying : Bool
  pendingDraft : Option ScannedData
  form : FormState
  warnings : List String
deriving DecidableEq, Repr

/-- Events of the reconciler: a draft delivered to `handleScanComplete`
(`none` when the callback receives no data), and the scheduled timeout
firing. -/
inductive ScanEvent where
  | arrive (d : Option ScannedData)
  | timeout
deriving DecidableEq, Repr

/-- One event step of `handleScanComplete`.  An arriving draft is dropped
when absent or when `isProcessingScan.current` is set; otherwise the flag
is raised, the synchronous writes run, and the category block is scheduled.
The timeout runs the deferred block and clears the flag. -/
def scanStep (cats : List Category) (s : ScanSys) : ScanEvent → ScanSys
  | ScanEvent.arrive none => s
  | ScanEvent.arrive (some d) =>
    if s.applying then s
    else
      let (f, w) := scanPhase1 d s.form
      { applying := true, pendingDraft := some d, form := f,
        warnings := s.warnings ++ w }
  | ScanEvent.timeout =>
    match s.pendingDraft with
    | none => s
    | some d =>
      let (f, w) := scanPhase2 cats d s.form
      { applying := false, pendingDraft := none, form := f,
        warnings := s.warnings ++ w }

/-- Run a list of events from a state. -/
def scanRun (cats : List Category) (s : ScanSys) : List ScanEvent → ScanSys
  | [] => s
  | e :: es => scanRun cats (scanStep cats s e) es

/-- The type-watching `useEffect` of `AddTransactionForm` (part_000 lines
212–217): when no scan is being applied and the previously observed type
(`prevTypeRef.current`, `none` = `undefined`) differs from the current
type, clear the category; then record the current type.  On mount the ref
is initialized to the current type (`useRef(type)`), so the effect's first
run sees `prev = some cur`. -/
def typeChangeEffect (applying : Bool) (prev : Option String) (cur : String)
    (form : FormState) : FormState × Option String :=
  if !applying && prev != some cur && prev != none then
    ({ form with category := "" }, some cur)
  else (form, some cur)

/-! ## Helper lemmas: calendar arithmetic -/

theorem daysInMonth_bounds (y m : Int) : 28 ≤ daysInMonth y m ∧ daysInMonth y m ≤ 31 := by
  unfold daysInMonth
  split
  · split <;> omega
  · split <;> omega

theorem before_trans {a b c : CalDate} (h1 : a.before b) (h2 : b.before c) :
    a.before c := by
  unfold CalDate.before at *
  omega

theorem addOneDay_spec (d : CalDate) (h : d.valid) :
    d.before (addOneDay d) ∧ (addOneDay d).valid := by
  obtain ⟨h1, h2, h3, h4⟩ := h
  have hb1 := daysInMonth_bounds d.year (d.month + 1)
  have hb2 := daysInMonth_bounds (d.year + 1) 1
  unfold addOneDay CalDate.before CalDate.valid
  split
  · dsimp only; omega
  · split <;> dsimp only <;> omega

theorem addDaysN_spec (n : Nat) (d : CalDate) (h : d.valid) :
    d.before (addDaysN (n + 1) d) ∧ (addDaysN (n + 1) d).valid := by
  induction n generalizing d with
  | zero => exact addOneDay_spec d h
  | succ k ih =>
    obtain ⟨hlt, hv⟩ := addOneDay_spec d h
    obtain ⟨hlt2, hv2⟩ := ih (addOneDay d) hv
    exact ⟨before_trans hlt hlt2, hv2⟩

theorem addMonthJS_before (d : CalDate) (h : d.valid) : d.before (addMonthJS d) := by
  obtain ⟨h1, h2, h3, h4⟩ := h
  have hbA := daysInMonth_bounds (d.year + 1) 1
  have hbB := daysInMonth_bounds d.year (d.month + 1)
  unfold addMonthJS rollDay CalDate.before
  split
  · split
    · dsimp only; omega
    · split <;> dsimp only <;> omega
  · split
    · dsimp only; omega
    · split <;> dsimp only <;> omega

theorem addYearJS_before (d : CalDate) (h : d.valid) : d.before (addYearJS d) := by
  obtain ⟨h1, h2, h3, h4⟩ := h
  unfold addYearJS rollDay CalDate.before
  split
  · dsimp only; omega
  · split <;> dsimp only <;> omega

/-- C8 counterexample: the code's month arithmetic uses JS `Date` overflow
normalization, so a recurring MONTHLY transaction dated Jan 31 2025 gets
`nextRecurringDate` Mar 3 2025, not the Feb 28 2025 the claim requires. -/
theorem recurring_month_overflow_cex :
    calculateNextRecurringDate ⟨2025, 1, 31⟩ "MONTHLY" = ⟨2025, 3, 3⟩ ∧
    (⟨2025, 3, 3⟩ : CalDate) ≠ ⟨2025, 2, 28⟩ := by
  decide

/-- C8 (amended): for every created or updated transaction, when
`isRecurring` is false or the interval is absent/empty, `nextRecurringDate`
is null; when both are set, `nextRecurringDate` is the transaction date
advanced by one unit of the interval, where month and year steps use JS
`Date` day-of-month overflow semantics (the excess past the end of the
target month rolls into the following month, e.g. Jan 31 + 1 month =
Mar 2/3) rather than clamping to the month end; for any valid date and any
of the four recognized intervals the result is strictly after the date. -/
theorem nextRecurringDate_spec (data : TxnData) :
    ((data.isRecurring = false ∨ data.recurringInterval = none ∨
        data.recurringInterval = some "") → nextRecurringOf data = none) ∧
    (∀ iv, data.recurringInterval = some iv → data.isRecurring = true → iv ≠ "" →
      nextRecurringOf data = some (calculateNextRecurringDate data.date iv) ∧
      (data.date.valid →
        (iv = "DAILY" ∨ iv = "WEEKLY" ∨ iv = "MONTHLY" ∨ iv = "YEARLY") →
        data.date.before (calculateNextRecurringDate data.date iv))) := by
  constructor
  · intro h
    unfold nextRecurringOf
    cases hi : data.recurringInterval with
    | none => rfl
    | some iv =>
      rcases h with h | h | h
      · simp [h]
      · rw [hi] at h; exact absurd h (by simp)
      · rw [hi] at h
        injection h with h2
        subst h2
        simp
  · intro iv hiv hrec hne
    constructor
    · simp [nextRecurringOf, hiv, hrec, hne]
    · intro hv hcase
      rcases hcase with rfl | rfl | rfl | rfl
      · exact (addOneDay_spec data.date hv).1
      · exact (addDaysN_spec 6 data.date hv).1
      · exact addMonthJS_before data.date hv
      · exact addYearJS_before data.date hv

/-- Witness for `nextRecurringDate_spec` at a concrete recurring MONTHLY
transaction dated Jan 31 2025. -/
theorem nextRecurringDate_spec_witness :
    nextRecurringOf ⟨"EXPENSE", 100, "a1", ⟨2025, 1, 31⟩, true, some "MONTHLY"⟩ =
      some (calculateNextRecurringDate ⟨2025, 1, 31⟩ "MONTHLY") ∧
    (⟨2025, 1, 31⟩ : CalDate).before (calculateNextRecurringDate ⟨2025, 1, 31⟩ "MONTHLY") := by
  have h := (nextRecurringDate_spec
      ⟨"EXPENSE", 100, "a1", ⟨2025, 1, 31⟩, true, some "MONTHLY"⟩).2
      "MONTHLY" rfl rfl (by decide)
  exact ⟨h.1, h.2 (by decide) (Or.inr (Or.inr (Or.inl rfl)))⟩

/-! ## Helper lemmas: account lookup after a keyed update -/

theorem find?_map_keyed (l : List Account) (aid : String) (f : Account → Account)
    (hid : ∀ a, (f a).id = a.id) :
    (l.map (fun a => if a.id == aid then f a else a)).find? (fun a => a.id == aid)
      = (l.find? (fun a => a.id == aid)).map f := by
  induction l with
  | nil => rfl
  | cons hd tl ih =>
    cases hb : (hd.id == aid) with
    | true =>
      have hfb : ((f hd).id == aid) = true := by rw [hid]; exact hb
      rw [List.map_cons, if_pos hb,
        @List.find?_cons_of_pos _ (fun a => a.id == aid) (f hd) _ hfb,
        @List.find?_cons_of_pos _ (fun a => a.id == aid) hd _ hb, Option.map_some']
    | false =>
      have hne : ¬ (hd.id == aid) = true := by simp [hb]
      rw [List.map_cons, if_neg hne,
        @List.find?_cons_of_neg _ (fun a => a.id == aid) hd _ hne,
        @List.find?_cons_of_neg _ (fun a => a.id == aid) hd _ hne, ih]

/-- C2: for every successful `createTransaction`, the account's new balance
is its previous balance plus `-amount` for EXPENSE / `+amount` otherwise,
and the single store returned by the `db.$transaction` block carries both
the appended transaction record and the updated balance — the two writes
are one atomic state change. -/
theorem createTransaction_spec (newId : String) (data : TxnData) (s s' : Store) (b : Rat)
    (hbal : getBalance s data.accountId = some b)
    (h : createTransaction newId data s = Except.ok s') :
    getBalance s' data.accountId =
      some (b + (if data.ttype == "EXPENSE" then -data.amount else data.amount)) ∧
    s'.transactions = s.transactions ++
      [{ id := newId, ttype := data.ttype, amount := data.amount,
         accountId := data.accountId, date := data.date,
         isRecurring := data.isRecurring,
         recurringInterval := data.recurringInterval,
         nextRecurringDate := nextRecurringOf data }] := by
  unfold createTransaction at h
  cases hf : s.accounts.find? (fun a => a.id == data.accountId) with
  | none =>
    rw [hf] at h
    exact absurd h (by simp)
  | some account =>
    rw [hf] at h
    injection h with h2
    subst h2
    unfold getBalance at hbal ⊢
    rw [hf] at hbal
    rw [Option.map_some'] at hbal
    injection hbal with hb2
    constructor
    · dsimp only
      rw [find?_map_keyed s.accounts data.accountId
          (fun a => { a with balance := account.balance +
            (if data.ttype == "EXPENSE" then -data.amount else data.amount) })
          (fun _ => rfl), hf]
      rw [Option.map_some']
      dsimp only [Option.map_some']
      rw [hb2]
    · rfl

instance {ε α : Type} [DecidableEq ε] [DecidableEq α] : DecidableEq (Except ε α) := fun a b =>
  match a, b with
  | Except.ok x, Except.ok y =>
    if h : x = y then isTrue (by rw [h]) else isFalse (fun hc => h (Except.ok.inj hc))
  | Except.error x, Except.error y =>
    if h : x = y then isTrue (by rw [h]) else isFalse (fun hc => h (Except.error.inj hc))
  | Except.ok _, Except.error _ => isFalse (fun hc => Except.noConfusion hc)
  | Except.error _, Except.ok _ => isFalse (fun hc => Except.noConfusion hc)

/-- Concrete input for the `createTransaction_spec` witness. -/
abbrev c2Data : TxnData := ⟨"EXPENSE", 100, "a1", ⟨2025, 1, 1⟩, false, none⟩

/-- One account with balance 500 and no transactions. -/
abbrev c2Store : Store := ⟨[⟨"a1", 500⟩], []⟩

/-- The store after `createTransaction "t1" c2Data c2Store`. -/
abbrev c2StoreAfter : Store :=
  ⟨[⟨"a1", 400⟩], [⟨"t1", "EXPENSE", 100, "a1", ⟨2025, 1, 1⟩, false, none, none⟩]⟩

/-- Witness for `createTransaction_spec`: an EXPENSE of 100 against a
balance of 500 leaves 400 and appends the record, in one returned store. -/
theorem createTransaction_spec_witness :
    getBalance c2StoreAfter c2Data.accountId = some 400 ∧
    c2StoreAfter.transactions =
      [⟨"t1", "EXPENSE", 100, "a1", ⟨2025, 1, 1⟩, false, none, none⟩] := by
  have h := createTransaction_spec "t1" c2Data c2Store c2StoreAfter 500 (by decide)
    (by unfold createTransaction; norm_num [List.find?, nextRecurringOf])
  exact ⟨by rw [h.1]; norm_num, by rw [h.2]; decide⟩

/-- C1: for every successful `updateTransaction`, the account's balance
changes by exactly `netDelta = newDelta - oldDelta`, where `oldDelta` is
the signed amount of the original transaction as found in the store at
update time (not any client-supplied value) and `newDelta` the signed
amount of the proposed data. -/
theorem updateTransaction_spec (id : String) (data : TxnData) (s s' : Store)
    (orig : Txn) (b : Rat)
    (hfind : s.transactions.find? (fun t => t.id == id) = some orig)
    (hbal : getBalance s data.accountId = some b)
    (h : updateTransaction id data s = Except.ok s') :
    getBalance s' data.accountId =
      some (b + ((if data.ttype == "EXPENSE" then -data.amount else data.amount)
        - (if orig.ttype == "EXPENSE" then -orig.amount else orig.amount))) := by
  unfold updateTransaction at h
  rw [hfind] at h
  have hsome : (s.accounts.find? (fun a => a.id == data.accountId)).isSome = true := by
    unfold getBalance at hbal
    cases hfa : s.accounts.find? (fun a => a.id == data.accountId) with
    | none => rw [hfa] at hbal; exact absurd hbal (by simp)
    | some a => rfl
  dsimp only at h
  rw [if_pos hsome] at h
  injection h with h2
  subst h2
  unfold getBalance at hbal ⊢
  cases hfa : s.accounts.find? (fun a => a.id == data.accountId) with
  | none => rw [hfa] at hbal; exact absurd hbal (by simp)
  | some acct =>
    rw [hfa] at hbal
    rw [Option.map_some'] at hbal
    injection hbal with hb2
    dsimp only
    rw [find?_map_keyed s.accounts data.accountId
        (fun a => { a with balance := a.balance +
          ((if data.ttype == "EXPENSE" then -data.amount else data.amount)
            - (if orig.ttype == "EXPENSE" then -orig.amount else orig.amount)) })
        (fun _ => rfl), hfa]
    rw [Option.map_map]
    rw [Option.map_some']
    dsimp only [Function.comp]
    rw [hb2]

/-- Store for the `updateTransaction_spec` witness: balance 500, one
EXPENSE/100 transaction. -/
abbrev c1Store : Store :=
  ⟨[⟨"a1", 500⟩], [⟨"t1", "EXPENSE", 100, "a1", ⟨2025, 1, 1⟩, false, none, none⟩]⟩

/-- Proposed new values: INCOME/30. -/
abbrev c1Data : TxnData := ⟨"INCOME", 30, "a1", ⟨2025, 1, 2⟩, false, none⟩

/-- The store after the update: balance 630. -/
abbrev c1StoreAfter : Store :=
  ⟨[⟨"a1", 630⟩], [⟨"t1", "INCOME", 30, "a1", ⟨2025, 1, 2⟩, false, none, none⟩]⟩

/-- Witness for `updateTransaction_spec`: editing the original EXPENSE/100
to INCOME/30 on a balance of 500 gives `netDelta = +130`, balance 630. -/
theorem updateTransaction_spec_witness :
    getBalance c1StoreAfter c1Data.accountId = some 630 := by
  have h := updateTransaction_spec "t1" c1Data c1Store c1StoreAfter
      ⟨"t1", "EXPENSE", 100, "a1", ⟨2025, 1, 1⟩, false, none, none⟩ 500
      (by decide) (by decide)
      (by unfold updateTransaction
          norm_num [List.find?, nextRecurringOf,
            (show ("INCOME" : String) ≠ "EXPENSE" by decide)])
  rw [h]
  norm_num [(show ("INCOME" : String) ≠ "EXPENSE" by decide)]

/-! ## Normalizer claims -/

/-- C3 counterexample: a JSON object with no `amount` key but useful other
fields makes the normalization block throw a hard error — no draft with
the amount dropped is returned, contradicting the claim that normalization
fails only on the top-level JSON parse error. -/
theorem normalize_missing_amount_cex :
    normalizeParsed "2025-10-11"
        ⟨none, some (jstr "2025-01-01"), some (jstr "Store"), none⟩ =
      Except.error "Could not extract amount from receipt" := by
  rfl

/-- C3 (amended): the normalization block hard-fails on every unusable
amount, along the code's two paths.  An absent or falsy amount
(`undefined`, `null`, `false`, `0`, `""`), or one whose `ToNumber`
coercion is `≤ 0` (e.g. the strings `"0"`, `"-5"`), throws
`"Could not extract amount from receipt"`; a truthy amount that survives
the `<= 0` test but whose `parseFloat` is `NaN` (e.g. `"abc"`, `true`)
throws `"Invalid amount in receipt"`.  No draft is returned in either
case, and the amount field is never dropped: every successful draft
carries the `parseFloat` of the supplied amount. -/
theorem normalize_amount_hard_fail (today : String) (p : ParsedData) :
    (jsTruthy p.amount = false →
      normalizeParsed today p = Except.error "Could not extract amount from receipt") ∧
    (∀ v, p.amount = some v → jsLeZero v = true →
      normalizeParsed today p = Except.error "Could not extract amount from receipt") ∧
    (∀ v, p.amount = some v → jsTruthy p.amount = true → jsLeZero v = false →
      jsParseFloat v = none →
      normalizeParsed today p = Except.error "Invalid amount in receipt") ∧
    (∀ out, normalizeParsed today p = Except.ok out →
      ∃ v, p.amount = some v ∧ jsParseFloat v = some out.amount) := by
  refine ⟨?_, ?_, ?_, ?_⟩
  · intro htr
    simp [normalizeParsed, htr]
  · intro v hv hle
    simp [normalizeParsed, hv, hle]
  · intro v hv htr hle hpf
    rw [hv] at htr
    simp [normalizeParsed, hv, htr, hle, hpf]
  · intro out hout
    unfold normalizeParsed at hout
    split at hout
    · exact absurd hout (by simp)
    · split at hout
      · exact absurd hout (by simp)
      · rename_i amt heq
        injection hout with h2
        subst h2
        cases hv : p.amount with
        | none => rw [hv] at heq; exact absurd heq (by simp)
        | some v =>
          rw [hv] at heq
          exact ⟨v, rfl, heq⟩

/-- Witness for `normalize_amount_hard_fail`: the non-positive amount `0`
takes the `"Could not extract amount"` path, and the unparseable string
amount `"abc"` takes the `"Invalid amount in receipt"` path. -/
theorem normalize_amount_hard_fail_witness :
    normalizeParsed "2025-10-11"
        ⟨some (jnum 0), some (jstr "2025-01-01"), some (jstr "Store"), none⟩ =
      Except.error "Could not extract amount from receipt" ∧
    normalizeParsed "2025-10-11"
        ⟨some (jstr "abc"), some (jstr "2025-01-01"), some (jstr "Store"), none⟩ =
      Except.error "Invalid amount in receipt" := by
  constructor
  · exact (normalize_amount_hard_fail "2025-10-11"
      ⟨some (jnum 0), some (jstr "2025-01-01"), some (jstr "Store"), none⟩).2.1
      (jnum 0) rfl (by rfl)
  · exact (normalize_amount_hard_fail "2025-10-11"
      ⟨some (jstr "abc"), some (jstr "2025-01-01"), some (jstr "Store"), none⟩).2.2.1
      (jstr "abc") rfl (by rfl) (by rfl) (by rfl)

/-- Whether the normalization block succeeded. -/
def exOk : Except String NormalizedData → Bool
  | Except.ok _ => true
  | Except.error _ => false

/-- C9 counterexample: a whitespace-only description (`" "`) is blank
after trimming, but the code's check is `!description || description === ""`
without a trim, so the draft keeps `" "` instead of the claimed
`"Receipt Transaction"` placeholder. -/
theorem normalize_blank_description_cex :
    normalizeParsed "2025-10-11"
        ⟨some (jnum 5), some (jstr "2025-01-01"), some (jstr " "), none⟩ =
      Except.ok ⟨5, jstr "2025-01-01", jstr " ", jstr ""⟩ ∧
    jstr " " ≠ jstr "Receipt Transaction" := by
  exact ⟨by rfl, by decide⟩

/-- C9 (amended): the placeholder `"Receipt Transaction"` is substituted
exactly when the description field is absent or falsy (which includes the
empty string); a non-empty string — even one consisting only of
whitespace — is kept unchanged; and whether normalization succeeds never
depends on the description field. -/
theorem normalize_description_spec (today : String) (p : ParsedData) :
    (∀ out, normalizeParsed today p = Except.ok out →
      (jsTruthy p.description = false → out.description = jstr "Receipt Transaction") ∧
      (∀ s, p.description = some (jstr s) → s ≠ "" → out.description = jstr s)) ∧
    (∀ d1 d2, exOk (normalizeParsed today { p with description := d1 }) =
              exOk (normalizeParsed today { p with description := d2 })) := by
  constructor
  · intro out hout
    unfold normalizeParsed at hout
    split at hout
    · exact absurd hout (by simp)
    · split at hout
      · exact absurd hout (by simp)
      · injection hout with h2
        subst h2
        constructor
        · intro htr
          simp [htr]
        · intro s hs hne
          simp [hs, jsTruthy, hne]
  · intro d1 d2
    cases hC : (!jsTruthy p.amount ||
        (match p.amount with | some v => jsLeZero v | none => false)) with
    | true => simp [normalizeParsed, hC, exOk]
    | false =>
      cases hPF : (match p.amount with | some v => jsParseFloat v | none => none) with
      | none => simp [normalizeParsed, hC, hPF, exOk]
      | some amt => simp [normalizeParsed, hC, hPF, exOk]

/-- Witness for `normalize_description_spec` at a concrete draft whose
description is the non-blank string `"Store"`. -/
theorem normalize_description_spec_witness :
    (⟨5, jstr "2025-01-01", jstr "Store", jstr ""⟩ : NormalizedData).description =
      jstr "Store" := by
  have h := (normalize_description_spec "2025-10-11"
      ⟨some (jnum 5), some (jstr "2025-01-01"), some (jstr "Store"), none⟩).1
      ⟨5, jstr "2025-01-01", jstr "Store", jstr ""⟩ (by rfl)
  exact h.2 "Store" rfl (by decide)

/-- C10: the date is validated only against the digit pattern
`\d{4}-\d{2}-\d{2}`, not the calendar: a pattern-matching string that is
no real date (such as `"2024-99-99"`) is kept unchanged, while an absent,
empty (more generally falsy) or pattern-violating date is replaced with
the current date. -/
theorem normalize_date_pattern_spec (today : String) (p : ParsedData) (out : NormalizedData)
    (h : normalizeParsed today p = Except.ok out) :
    (∀ s, p.date = some (jstr s) → s ≠ "" → matchesYMD s = true → out.date = jstr s) ∧
    (jsTruthy p.date = false → out.date = jstr today) ∧
    (∀ s, p.date = some (jstr s) → matchesYMD s = false → out.date = jstr today) := by
  unfold normalizeParsed at h
  split at h
  · exact absurd h (by simp)
  · split at h
    · exact absurd h (by simp)
    · injection h with h2
      subst h2
      refine ⟨?_, ?_, ?_⟩
      · intro s hs hne hm
        simp [hs, jsTruthy, hne, jvalMatchesYMD, hm]
      · intro htr
        simp [htr, ite_self]
      · intro s hs hm
        by_cases hne : s = ""
        · subst hne
          simp [hs, jsTruthy, ite_self]
        · simp [hs, jsTruthy, hne, jvalMatchesYMD, hm]

/-- Witness for `normalize_date_pattern_spec`: `"2024-99-99"` matches the
pattern, is no calendar date, and is kept in the draft unchanged. -/
theorem normalize_date_pattern_spec_witness :
    (⟨5, jstr "2024-99-99", jstr "Store", jstr ""⟩ : NormalizedData).date =
      jstr "2024-99-99" := by
  have h := normalize_date_pattern_spec "2025-10-11"
      ⟨some (jnum 5), some (jstr "2024-99-99"), some (jstr "Store"), none⟩
      ⟨5, jstr "2024-99-99", jstr "Store", jstr ""⟩ (by rfl)
  exact h.1 "2024-99-99" rfl (by decide) (by decide)

/-! ## Reconciler claims -/

/-- C7: category resolution considers only candidates of type `EXPENSE`
(the transaction type in force at resolution time), matches the name
case-insensitively and exactly, and yields none on empty input or no
match; the claim's three examples are checked literally. -/
theorem resolveCategory_spec :
    (∀ s cats cid, resolveCategory s cats = some cid →
      ∃ c, c ∈ cats ∧ c.id = cid ∧ c.ctype = "EXPENSE" ∧
        strToLower c.name = strToLower s) ∧
    (∀ cats, resolveCategory "" cats = none) ∧
    resolveCategory "Food" [⟨"c1", "Food", "EXPENSE"⟩, ⟨"c2", "Food", "INCOME"⟩] = some "c1" ∧
    resolveCategory "food" [⟨"c1", "Food", "EXPENSE"⟩, ⟨"c2", "Food", "INCOME"⟩] = some "c1" ∧
    resolveCategory "Foo" [⟨"c1", "Food", "EXPENSE"⟩, ⟨"c2", "Food", "INCOME"⟩] = none := by
  refine ⟨?_, ?_, by rfl, by rfl, by rfl⟩
  · intro s cats cid hres
    unfold resolveCategory at hres
    split at hres
    · cases hf : cats.find? (fun cat => strToLower cat.name == strToLower s
          && cat.ctype == "EXPENSE") with
      | none => rw [hf] at hres; exact absurd hres (by simp)
      | some c =>
        rw [hf, Option.map_some'] at hres
        injection hres with h2
        have hmem := List.mem_of_find?_eq_some hf
        have hp := List.find?_some hf
        rw [Bool.and_eq_true] at hp
        exact ⟨c, hmem, h2, eq_of_beq hp.2, eq_of_beq hp.1⟩
    · exact absurd hres (by simp)
  · intro cats; rfl

/-- Witness for `resolveCategory_spec`: the resolved id `"c1"` names an
EXPENSE candidate whose name matches `"Food"` case-insensitively. -/
theorem resolveCategory_spec_witness :
    ∃ c, c ∈ [(⟨"c1", "Food", "EXPENSE"⟩ : Category), ⟨"c2", "Food", "INCOME"⟩] ∧
      c.id = "c1" ∧ c.ctype = "EXPENSE" ∧ strToLower c.name = strToLower "Food" :=
  resolveCategory_spec.1 "Food"
    [⟨"c1", "Food", "EXPENSE"⟩, ⟨"c2", "Food", "INCOME"⟩] "c1" (by rfl)

/-- C5: a second draft delivered while the first is still being applied
(`isProcessingScan` set, timeout pending) leaves the reconciler state
completely unchanged — no field writes, nothing queued — so the final form
is the one produced by the first draft alone. -/
theorem second_draft_dropped (cats : List Category) (s0 : ScanSys) (d1 d2 : ScannedData)
    (h0 : s0.applying = false) :
    scanStep cats (scanStep cats s0 (ScanEvent.arrive (some d1)))
        (ScanEvent.arrive (some d2))
      = scanStep cats s0 (ScanEvent.arrive (some d1)) ∧
    scanRun cats s0 [ScanEvent.arrive (some d1), ScanEvent.arrive (some d2),
        ScanEvent.timeout]
      = scanRun cats s0 [ScanEvent.arrive (some d1), ScanEvent.timeout] := by
  have h1 : scanStep cats s0 (ScanEvent.arrive (some d1)) =
      { applying := true, pendingDraft := some d1,
        form := (scanPhase1 d1 s0.form).1,
        warnings := s0.warnings ++ (scanPhase1 d1 s0.form).2 } := by
    unfold scanStep
    dsimp only
    rw [if_neg (by simp [h0])]
  have h2 : scanStep cats (scanStep cats s0 (ScanEvent.arrive (some d1)))
      (ScanEvent.arrive (some d2)) = scanStep cats s0 (ScanEvent.arrive (some d1)) := by
    rw [h1]
    rfl
  refine ⟨h2, ?_⟩
  show scanStep cats (scanStep cats (scanStep cats s0 (ScanEvent.arrive (some d1)))
      (ScanEvent.arrive (some d2))) ScanEvent.timeout
    = scanStep cats (scanStep cats s0 (ScanEvent.arrive (some d1))) ScanEvent.timeout
  rw [h2]

/-- Witness for `second_draft_dropped`: two concrete drafts, second
arriving before the first timeout; the run equals the single-draft run. -/
theorem second_draft_dropped_witness :
    scanRun [] ⟨false, none, ⟨"EXPENSE", "", "", "", ⟨2025, 1, 1⟩⟩, []⟩
        [ScanEvent.arrive (some ⟨some 10, none, none, none⟩),
         ScanEvent.arrive (some ⟨some 20, none, none, none⟩), ScanEvent.timeout]
      = scanRun [] ⟨false, none, ⟨"EXPENSE", "", "", "", ⟨2025, 1, 1⟩⟩, []⟩
        [ScanEvent.arrive (some ⟨some 10, none, none, none⟩), ScanEvent.timeout] :=
  (second_draft_dropped [] ⟨false, none, ⟨"EXPENSE", "", "", "", ⟨2025, 1, 1⟩⟩, []⟩
    ⟨some 10, none, none, none⟩ ⟨some 20, none, none, none⟩ rfl).2

/-- C6: the type-watching effect clears the category exactly when no scan
is being applied and the observed type differs from the previously
recorded one; when the recorded type equals the current one (as on initial
mount, where the ref is initialized to the first observed type) nothing is
cleared, and while a scan is being applied nothing is cleared. -/
theorem type_change_effect_spec (prev cur : String) (form : FormState) :
    (prev ≠ cur →
      typeChangeEffect false (some prev) cur form =
        ({ form with category := "" }, some cur)) ∧
    (∀ applying, typeChangeEffect applying (some cur) cur form = (form, some cur)) ∧
    (∀ p : Option String, typeChangeEffect true p cur form = (form, some cur)) := by
  refine ⟨?_, ?_, ?_⟩
  · intro hne
    simp [typeChangeEffect, hne]
  · intro applying
    simp [typeChangeEffect]
  · intro p
    simp [typeChangeEffect]

/-- Witness for `type_change_effect_spec`: a user type switch clears a
pre-selected category; the mount baseline and an in-progress scan do not. -/
theorem type_change_effect_spec_witness :
    typeChangeEffect false (some "EXPENSE") "INCOME" ⟨"INCOME", "", "", "c1", ⟨2025, 1, 1⟩⟩
      = (⟨"INCOME", "", "", "", ⟨2025, 1, 1⟩⟩, some "INCOME") ∧
    typeChangeEffect false (some "EXPENSE") "EXPENSE" ⟨"EXPENSE", "", "", "c1", ⟨2025, 1, 1⟩⟩
      = (⟨"EXPENSE", "", "", "c1", ⟨2025, 1, 1⟩⟩, some "EXPENSE") ∧
    typeChangeEffect true (some "EXPENSE") "INCOME" ⟨"INCOME", "", "", "c1", ⟨2025, 1, 1⟩⟩
      = (⟨"INCOME", "", "", "c1", ⟨2025, 1, 1⟩⟩, some "INCOME") := by
  refine ⟨?_, ?_, ?_⟩
  · exact (type_change_effect_spec "EXPENSE" "INCOME"
      ⟨"INCOME", "", "", "c1", ⟨2025, 1, 1⟩⟩).1 (by decide)
  · exact (type_change_effect_spec "EXPENSE" "EXPENSE"
      ⟨"EXPENSE", "", "", "c1", ⟨2025, 1, 1⟩⟩).2.1 false
  · exact (type_change_effect_spec "EXPENSE" "INCOME"
      ⟨"INCOME", "", "", "c1", ⟨2025, 1, 1⟩⟩).2.2 (some "EXPENSE")

/-- Full application of one draft: the `handleScanComplete` call followed
by its deferred category block. -/
def applyScan (cats : List Category) (s : ScanSys) (d : ScannedData) : ScanSys :=
  scanStep cats (scanStep cats s (ScanEvent.arrive (some d))) ScanEvent.timeout

/-- C4: applying a draft forces the type field to `EXPENSE` already in the
synchronous phase — before the deferred category resolution, which matches
only candidates of type `EXPENSE` — and when the suggestion is unresolved
or absent the category field ends up exactly `""` (never a stale id), with
the unresolved case surfacing an advisory that names the suggestion. -/
theorem scan_apply_spec (cats : List Category) (s0 : ScanSys) (d : ScannedData)
    (h0 : s0.applying = false) :
    (scanStep cats s0 (ScanEvent.arrive (some d))).form.ftype = "EXPENSE" ∧
    (applyScan cats s0 d).form.ftype = "EXPENSE" ∧
    (∀ n c, d.category = some n → (n != "" && strTrim n != "") = true →
      cats.find? (fun cat => strToLower cat.name == strToLower n
        && cat.ctype == "EXPENSE") = some c →
      (applyScan cats s0 d).form.category = c.id ∧ c ∈ cats ∧ c.ctype = "EXPENSE") ∧
    (∀ n, d.category = some n → (n != "" && strTrim n != "") = true →
      cats.find? (fun cat => strToLower cat.name == strToLower n
        && cat.ctype == "EXPENSE") = none →
      (applyScan cats s0 d).form.category = "" ∧
      ("Could not match category \x22" ++ n ++ "\x22. Please select manually.")
        ∈ (applyScan cats s0 d).warnings) ∧
    (∀ n, d.category = some n → (n != "" && strTrim n != "") = false →
      (applyScan cats s0 d).form.category = "") ∧
    (d.category = none → (applyScan cats s0 d).form.category = "") := by
  have h1 : scanStep cats s0 (ScanEvent.arrive (some d)) =
      { applying := true, pendingDraft := some d,
        form := (scanPhase1 d s0.form).1,
        warnings := s0.warnings ++ (scanPhase1 d s0.form).2 } := by
    unfold scanStep
    dsimp only
    rw [if_neg (by simp [h0])]
  have h2 : applyScan cats s0 d =
      match scanPhase2 cats d (scanPhase1 d s0.form).1 with
      | (f, w) =>
        ScanSys.mk false none f ((s0.warnings ++ (scanPhase1 d s0.form).2) ++ w) := by
    unfold applyScan
    rw [h1]
    rfl
  refine ⟨by rw [h1]; rfl, ?_, ?_, ?_, ?_, ?_⟩
  · rw [h2]
    unfold scanPhase2
    cases hc : d.category with
    | none => rfl
    | some n =>
      dsimp only
      by_cases hcond : (n != "" && strTrim n != "") = true
      · rw [if_pos hcond]
        cases hf : cats.find? (fun cat => strToLower cat.name == strToLower n
            && cat.ctype == "EXPENSE") with
        | none => rfl
        | some c => rfl
      · rw [if_neg hcond]
        rfl
  · intro n c hc hcond hf
    rw [h2]
    unfold scanPhase2
    rw [hc]
    dsimp only
    rw [if_pos hcond, hf]
    refine ⟨rfl, List.mem_of_find?_eq_some hf, ?_⟩
    have hp := List.find?_some hf
    rw [Bool.and_eq_true] at hp
    exact eq_of_beq hp.2
  · intro n hc hcond hf
    rw [h2]
    unfold scanPhase2
    rw [hc]
    dsimp only
    rw [if_pos hcond, hf]
    exact ⟨rfl, by simp⟩
  · intro n hc hcond
    rw [h2]
    unfold scanPhase2
    rw [hc]
    dsimp only
    rw [if_neg (by simp [hcond])]
  · intro hc
    rw [h2]
    unfold scanPhase2
    rw [hc]

/-- Witness for `scan_apply_spec`: a draft suggesting the unmatched
category `"Transport"` against candidates `[Food/EXPENSE]` forces type
EXPENSE, clears the previously selected category `"old"` to `""`, and
surfaces an advisory naming `"Transport"`. -/
theorem scan_apply_spec_witness :
    (applyScan [⟨"c1", "Food", "EXPENSE"⟩]
        ⟨false, none, ⟨"INCOME", "", "", "old", ⟨2025, 1, 1⟩⟩, []⟩
        ⟨some 10, some "2025-01-02", some "Store", some "Transport"⟩).form.ftype
      = "EXPENSE" ∧
    (applyScan [⟨"c1", "Food", "EXPENSE"⟩]
        ⟨false, none, ⟨"INCOME", "", "", "old", ⟨2025, 1, 1⟩⟩, []⟩
        ⟨some 10, some "2025-01-02", some "Store", some "Transport"⟩).form.category
      = "" ∧
    ("Could not match category \x22Transport\x22. Please select manually.")
      ∈ (applyScan [⟨"c1", "Food", "EXPENSE"⟩]
        ⟨false, none, ⟨"INCOME", "", "", "old", ⟨2025, 1, 1⟩⟩, []⟩
        ⟨some 10, some "2025-01-02", some "Store", some "Transport"⟩).warnings := by
  have h := scan_apply_spec [⟨"c1", "Food", "EXPENSE"⟩]
      ⟨false, none, ⟨"INCOME", "", "", "old", ⟨2025, 1, 1⟩⟩, []⟩
      ⟨some 10, some "2025-01-02", some "Store", some "Transport"⟩ rfl
  have h4 := h.2.2.2.1 "Transport" rfl (by decide) (by rfl)
  exact ⟨h.2.1, h4.1, h4.2⟩
